import Mathlib

/-!
Shallow embedding of the FTIR spectrum viewer (`src/App.py`) over exact
rationals, together with theorems settling the specification claims.

Conventions of the embedding:
* floating-point signal values are modelled as `ℚ`;
* a CSV cell after `pd.read_csv` is modelled abstractly: `Cell.num q` is a
  cell whose content coerces to the number `q` under `pd.to_numeric`,
  `Cell.na` is a missing cell (NaN), and `Cell.text s` is textual content
  that does not coerce to a number;
* byte decoding, `skiprows` and header inference happen before the model's
  entry point: a file whose bytes cannot be decoded or parsed at all is
  `LoadInput.bad` (the `except` path of `load_ftir_data`), otherwise the
  model receives the header row and the data rows (`LoadInput.table`);
  `pd.read_csv` deduplicates header names, so columns are addressed by index;
* Streamlit widgets are replaced by the configuration values they supply.
-/

/-- A cell of the dataframe produced by `pd.read_csv`. -/
inductive Cell where
  | num (q : ℚ)
  | na
  | text (s : String)
deriving DecidableEq, Repr

/-- `pd.isna` on a cell: only missing values are NA (strings are not). -/
def Cell.isNA : Cell → Bool
  | .na => true
  | _ => false

/-- `pd.to_numeric(column, errors='coerce')` applied to one cell: numeric
content is kept, anything else becomes NaN. -/
def toNumeric : Cell → Cell
  | .num q => .num q
  | _ => .na

/-- The parsed table `pd.read_csv` hands back: a header row of column names
and the data rows.  Short rows are padded with NaN by pandas; the model reads
missing positions as `Cell.na`. -/
structure RawTable where
  header : List String
  rows : List (List Cell)
deriving Repr

/-- Input to `load_ftir_data`: either bytes that fail to decode/parse
(`pd.read_csv` raises, the function's `except` branch returns `None`), or a
parsed table. -/
inductive LoadInput where
  | bad
  | table (t : RawTable)

/-- Python's substring test `pat in s`. -/
def containsSub (s pat : String) : Bool := 2 ≤ (s.splitOn pat).length

/-- `str(c).lower().strip()` applied to a column name. -/
def normalizeName (s : String) : String := s.toLower.trim

/-- Predicate of the wavenumber-column search:
`'cm-1' in c or 'wave' in c or 'numero' in c or 'wavenumber' in c`. -/
def isWavenumberName (c : String) : Bool :=
  containsSub c "cm-1" || containsSub c "wave" || containsSub c "numero" ||
    containsSub c "wavenumber"

/-- Predicate of the transmittance-column search:
`'%t' in c or 'trans' in c or 'tra' in c`. -/
def isTransmittanceName (c : String) : Bool :=
  containsSub c "%t" || containsSub c "trans" || containsSub c "tra"

/-- Column selection of `load_ftir_data`: first name-matched column for each
role; if either is unresolved, fall back to indices 0 and 1 provided at least
two columns exist, otherwise fail (`return None`). -/
def selectCols (cols : List String) : Option (ℕ × ℕ) :=
  match cols.findIdx? isWavenumberName, cols.findIdx? isTransmittanceName with
  | some w, some tr => some (w, tr)
  | _, _ => if 2 ≤ cols.length then some (0, 1) else none

/-- The two selected columns coerced with `pd.to_numeric(errors='coerce')`;
other columns untouched.  The row is padded to the table width, as pandas
does. -/
def coerceRow (w tr ncols : ℕ) (row : List Cell) : List Cell :=
  (List.range ncols).map (fun j =>
    let c := row.getD j Cell.na
    if j = w ∨ j = tr then toNumeric c else c)

/-- `df.dropna()` after the coercion step: a row survives iff no cell of the
coerced, padded row is NaN. -/
def keptRows (w tr ncols : ℕ) (rows : List (List Cell)) : List (List Cell) :=
  (rows.map (coerceRow w tr ncols)).filter (fun row => row.all (fun c => !c.isNA))

/-- Value of a numeric cell (rows that survived `dropna` hold `Cell.num` in
the selected columns). -/
def cellVal : Cell → ℚ
  | .num q => q
  | _ => 0

/-- Stable insertion into a descending-by-`x` list; models
`df.sort_values(by='x', ascending=False)` (tie order is not relied upon by
any claim). -/
def insertDesc (p : ℚ × ℚ) : List (ℚ × ℚ) → List (ℚ × ℚ)
  | [] => [p]
  | q :: qs => if q.1 < p.1 then p :: q :: qs else q :: insertDesc p qs

/-- Sort the (wavenumber, signal) pairs by wavenumber, descending. -/
def sortDesc (l : List (ℚ × ℚ)) : List (ℚ × ℚ) := l.foldr insertDesc []

/-- `load_ftir_data(uploaded_file, skip_rows)` after `pd.read_csv`:
normalize column names, select the wavenumber/transmittance columns, coerce
them to numbers, drop rows with NaN anywhere, and return the (x, y) pairs
sorted by descending wavenumber.  `none` models the `except`/`return None`
paths.  If name matching selects the same column for both roles, the
`rename` to `{'x','y'}` collapses it and `sort_values(by='x')` raises, which
the `except` turns into `None`. -/
def load_ftir_data (inp : LoadInput) : Option (List (ℚ × ℚ)) :=
  match inp with
  | .bad => none
  | .table t =>
    let cols := t.header.map normalizeName
    match selectCols cols with
    | none => none
    | some (w, tr) =>
      if w = tr then none
      else
        let kept := keptRows w tr cols.length t.rows
        let pairs := kept.map (fun row =>
          (cellVal (row.getD w Cell.na), cellVal (row.getD tr Cell.na)))
        some (sortDesc pairs)

/-- `series.min()` over a nonempty sequence with first element `a`. -/
def seriesMin (a : ℚ) (as : List ℚ) : ℚ := as.foldl min a

/-- `series.max()` over a nonempty sequence with first element `a`. -/
def seriesMax (a : ℚ) (as : List ℚ) : ℚ := as.foldl max a

/-- `normalize_data`: min-max scaling to [0,1]; a constant sequence (max =
min) is returned unchanged to avoid division by zero.  On the empty sequence
the pandas arithmetic is elementwise, so the result is again empty. -/
def normalize_data (l : List ℚ) : List ℚ :=
  match l with
  | [] => []
  | a :: as =>
    let mn := seriesMin a as
    let mx := seriesMax a as
    if mx = mn then l
    else (a :: as).map (fun v => (v - mn) / (mx - mn))

/-- The range mask of the plot loop:
`(df['x'] <= x_max_limit) & (df['x'] >= x_min_limit)`, applied with
`df[mask]`. -/
def rangeFilter (rows : List (ℚ × ℚ)) (xmin xmax : ℚ) : List (ℚ × ℚ) :=
  rows.filter (fun r => decide (r.1 ≤ xmax) && decide (xmin ≤ r.1))

/-!
Peak detection.  `scipy.signal.find_peaks(v, prominence=p)` is embedded
directly from scipy's `_local_maxima_1d` and `_peak_prominences` loops.
-/

/-- Inner plateau scan of `_local_maxima_1d`: starting at `j`, first index
`≥ j` that reaches `imax` or holds a value different from `v`.  The loop is
written with structural fuel `imax - j`: each iteration requires `j < imax`,
so the fuel cannot run out before the loop condition fails, and at fuel 0 we
have `j ≥ imax`, where returning `j` is exactly what the loop does. -/
def plateauEndF (y : List ℚ) (v : ℚ) (imax : ℕ) : ℕ → ℕ → ℕ
  | 0, j => j
  | fuel + 1, j =>
    if j < imax ∧ y.getD j 0 = v then plateauEndF y v imax fuel (j + 1) else j

/-- `plateauEndF` with its fuel instantiated. -/
def plateauEnd (y : List ℚ) (v : ℚ) (imax j : ℕ) : ℕ :=
  plateauEndF y v imax (imax - j) j

theorem plateauEndF_ge (y : List ℚ) (v : ℚ) (imax : ℕ) :
    ∀ fuel j, j ≤ plateauEndF y v imax fuel j := by
  intro fuel
  induction fuel with
  | zero => intro j; exact le_refl j
  | succ n ih =>
    intro j
    unfold plateauEndF
    split
    · exact le_trans (Nat.le_succ j) (ih (j + 1))
    · exact le_refl j

/-- Main loop of scipy's `_local_maxima_1d` on the sample array `y`:
scans `i` from 1 to `imax - 1` (`imax = length - 1`), detecting strict local
maxima including plateaus, and records each plateau's midpoint
`(left_edge + right_edge) // 2`.  Structural fuel again: every iteration has
`i < imax` and advances `i` by at least 1, so fuel `imax - i` never runs out
before the loop exits, and at fuel 0 we have `i ≥ imax`, where the loop also
stops with no further peaks. -/
def localMaximaAuxF (y : List ℚ) (imax : ℕ) : ℕ → ℕ → List ℕ
  | 0, _ => []
  | fuel + 1, i =>
    if i < imax then
      if y.getD (i - 1) 0 < y.getD i 0 then
        let ia := plateauEnd y (y.getD i 0) imax (i + 1)
        if y.getD ia 0 < y.getD i 0 then
          (i + (ia - 1)) / 2 :: localMaximaAuxF y imax fuel (ia + 1)
        else localMaximaAuxF y imax fuel (i + 1)
      else localMaximaAuxF y imax fuel (i + 1)
    else []

/-- Indices of the local maxima of `y` (midpoints of maximal plateaus),
as returned by `_local_maxima_1d`. -/
def localMaxima (y : List ℚ) : List ℕ :=
  localMaximaAuxF y (y.length - 1) (y.length - 1) 1

/-- Leftward walk of `_peak_prominences`: minimum of the values at indices
walked down from the peak while they stay `≤` the peak value, stopping past
index 0 or at the first strictly higher sample. -/
def walkLeftMin (y : List ℚ) (v : ℚ) : ℕ → ℚ → ℚ
  | 0, acc => if y.getD 0 0 ≤ v then min acc (y.getD 0 0) else acc
  | i + 1, acc =>
    if y.getD (i + 1) 0 ≤ v then
      walkLeftMin y v i (min acc (y.getD (i + 1) 0))
    else acc

/-- Rightward walk of `_peak_prominences`, bounded by `imax = length - 1`.
Fuel `imax + 1 - i` covers the iterations `i, …, imax`; at fuel 0 the loop
condition `i ≤ imax` is false and the loop likewise returns the
accumulator. -/
def walkRightMinF (y : List ℚ) (v : ℚ) (imax : ℕ) : ℕ → ℕ → ℚ → ℚ
  | 0, _, acc => acc
  | fuel + 1, i, acc =>
    if i ≤ imax ∧ y.getD i 0 ≤ v then
      walkRightMinF y v imax fuel (i + 1) (min acc (y.getD i 0))
    else acc

/-- Topographic prominence of the peak at index `p` of `y`, per scipy's
`_peak_prominences` with an unrestricted window:
`y[p] - max(left_min, right_min)`. -/
def prominenceAt (y : List ℚ) (p : ℕ) : ℚ :=
  let v := y.getD p 0
  let imax := y.length - 1
  v - max (walkLeftMin y v p v) (walkRightMinF y v imax (imax + 1 - p) p v)

/-- `scipy.signal.find_peaks(y, prominence=p)`: local maxima whose
prominence is at least `p`. -/
def find_peaks (y : List ℚ) (p : ℚ) : List ℕ :=
  (localMaxima y).filter (fun i => decide (p ≤ prominenceAt y i))

/-- `find_ftir_peaks(x, y, prominence)`: find peaks of the negated signal
(absorption valleys) and return the original `x` and `y` values at the
detected indices. -/
def find_ftir_peaks (x y : List ℚ) (prominence : ℚ := 0.01) :
    List ℚ × List ℚ :=
  let peaks := find_peaks (y.map (fun v => -v)) prominence
  (peaks.map (fun i => x.getD i 0), peaks.map (fun i => y.getD i 0))

/-- The run-wide prominence policy of the plot loop:
`prom = 0.02 if normalize_option else 0.5`. -/
def prom (normalize_option : Bool) : ℚ :=
  if normalize_option then 0.02 else 0.5

/-!
The composition layer: the per-file loop, the plot loop with stacking
offsets and peak aggregation, and the export area.
-/

/-- Round-half-to-even to an integer, the idealized semantics of Python's
built-in `round`. -/
def roundHalfEven (q : ℚ) : ℤ :=
  let f := ⌊q⌋
  let r := q - (f : ℚ)
  if r < 1 / 2 then f
  else if 1 / 2 < r then f + 1
  else if f % 2 = 0 then f else f + 1

/-- Python's `round(q, ndigits)`. -/
def pyround (ndigits : ℕ) (q : ℚ) : ℚ :=
  (roundHalfEven (q * 10 ^ ndigits) : ℚ) / 10 ^ ndigits

/-- One row of `all_peaks_data`: the dictionary appended for each detected
peak.  Field names follow the CSV header
`{Serie, Número de Onda, Transmitancia Original, Archivo Origen}`. -/
structure PeakRecord where
  serie : String
  numeroDeOnda : ℚ
  transmitanciaOriginal : ℚ
  archivoOrigen : String
deriving DecidableEq, Repr

/-- One entry of `plot_data`: the filtered (and, when enabled, normalized)
series together with its per-file settings.  The color and line-style
pickers are pure presentation and carry no data, so they are not modelled. -/
structure PlotItem where
  xs : List ℚ
  ys : List ℚ
  label : String
  filename : String
deriving DecidableEq, Repr

/-- One plotted line: `ax.plot(x_plot, y_final, label=...)`. -/
structure RenderedSeries where
  xs : List ℚ
  ys : List ℚ
  label : String
deriving DecidableEq, Repr

/-- Per-file messages of the processing loop. -/
inductive Notice where
  | loadError (filename : String)
  | rangeWarning (filename : String)
deriving DecidableEq, Repr

/-- Configuration supplied by the sidebar widgets for one run. -/
structure Config where
  xMinLimit : ℚ
  xMaxLimit : ℚ
  normalizeOption : Bool
  stackMode : Bool
  offsetValue : ℚ
deriving Repr

/-- Default series label: `file.name.rsplit('.', 1)[0]`. -/
def defaultLabel (name : String) : String :=
  let parts := name.splitOn "."
  if parts.length ≤ 1 then name else String.intercalate "." parts.dropLast

/-- One iteration of the upload loop (lines 128–164): load the file; on
`None` or an empty frame report a load error; filter to the configured
window; on an empty window report a range warning; otherwise normalize when
requested and keep the series for plotting. -/
def processFile (cfg : Config) (f : String × LoadInput) : PlotItem ⊕ Notice :=
  match load_ftir_data f.2 with
  | none => .inr (.loadError f.1)
  | some rows =>
    if rows.isEmpty then .inr (.loadError f.1)
    else
      let filtered := rangeFilter rows cfg.xMinLimit cfg.xMaxLimit
      if filtered.isEmpty then .inr (.rangeWarning f.1)
      else
        let ys := filtered.map (fun r => r.2)
        .inl
          { xs := filtered.map (fun r => r.1)
          , ys := if cfg.normalizeOption then normalize_data ys else ys
          , label := defaultLabel f.1
          , filename := f.1 }

/-- The whole upload loop: `plot_data` in input order together with the
notices, one outcome per file. -/
def processFiles (cfg : Config) (files : List (String × LoadInput)) :
    List PlotItem × List Notice :=
  let outs := files.map (processFile cfg)
  (outs.filterMap (fun o => match o with | .inl it => some it | .inr _ => none),
   outs.filterMap (fun o => match o with | .inl _ => none | .inr n => some n))

/-- `current_offset = idx * offset_value if stack_mode else 0`. -/
def seriesOffset (stackMode : Bool) (offsetValue : ℚ) (idx : ℕ) : ℚ :=
  if stackMode then idx * offsetValue else 0

/-- `y_final = y_plot + current_offset`, plotted with the series label. -/
def renderSeries (stackMode : Bool) (offsetValue : ℚ) (idx : ℕ)
    (item : PlotItem) : RenderedSeries :=
  { xs := item.xs
  , ys := item.ys.map (fun v => v + seriesOffset stackMode offsetValue idx)
  , label := item.label }

/-- The peak rows appended for one series: `find_ftir_peaks` on the stored
(pre-offset) columns with the run-wide prominence, each `(px, py)` rounded
to 2 and 4 decimals. -/
def peakRecordsOf (normalizeOption : Bool) (item : PlotItem) :
    List PeakRecord :=
  let found := find_ftir_peaks item.xs item.ys (prom normalizeOption)
  (found.1.zip found.2).map (fun v =>
    { serie := item.label
    , numeroDeOnda := pyround 2 v.1
    , transmitanciaOriginal := pyround 4 v.2
    , archivoOrigen := item.filename })

/-- The plot loop (lines 177–206): every series is drawn at its offset
y-position, and `all_peaks_data` aggregates the peak rows in series order. -/
def plotLoop (items : List PlotItem) (normalizeOption stackMode : Bool)
    (offsetValue : ℚ) : List RenderedSeries × List PeakRecord :=
  ((items.enum).map (fun p => renderSeries stackMode offsetValue p.1 p.2),
   (items.map (peakRecordsOf normalizeOption)).flatten)

/-- The download area (lines 234–263): the PNG button is always offered,
while the peak-table CSV button and the peak-table expander exist only when
`all_peaks_data` is non-empty (Python truthiness of the list). -/
structure ExportArea where
  pngButton : Bool
  peakCsv : Option (List PeakRecord)
  peakTable : Option (List PeakRecord)
deriving DecidableEq, Repr

/-- Build the download area from `all_peaks_data`. -/
def exportArea (all_peaks_data : List PeakRecord) : ExportArea :=
  { pngButton := true
  , peakCsv := if all_peaks_data.isEmpty then none else some all_peaks_data
  , peakTable := if all_peaks_data.isEmpty then none else some all_peaks_data }

/-- Everything the page shows for one run with uploaded files. -/
structure PageOutput where
  figure : Option (List RenderedSeries)
  exports : Option ExportArea
  notices : List Notice
deriving Repr

/-- One full run: process the uploaded files; when `plot_data` is non-empty
(`if plot_data:`), draw the figure and offer the downloads. -/
def runApp (files : List (String × LoadInput)) (cfg : Config) : PageOutput :=
  let pr := processFiles cfg files
  if pr.1.isEmpty then { figure := none, exports := none, notices := pr.2 }
  else
    let plotted :=
      plotLoop pr.1 cfg.normalizeOption cfg.stackMode cfg.offsetValue
    { figure := some plotted.1
    , exports := some (exportArea plotted.2)
    , notices := pr.2 }

/-- `df is None or df.empty`: the caller's notion of a failed load. -/
def loadFails (inp : LoadInput) : Bool :=
  match load_ftir_data inp with
  | none => true
  | some rows => rows.isEmpty

/-!
Theorems settling the claims.
-/

/-- C4 counterexample: the raw-mode prominence threshold is not 100 times
the normalized-mode one (0.5 ≠ 100 · 0.02 = 2). -/
theorem c4_counterexample : ¬ prom false = 100 * prom true := by
  norm_num [prom]

/-- C4 (amended): the prominence threshold used on raw
percent-transmittance values is 25 times the one used when normalization is
enabled (0.5 = 25 · 0.02), not two orders of magnitude larger. -/
theorem c4_prominence_ratio : prom false = 25 * prom true := by
  norm_num [prom]

/-- C6: for bounds `lo ≤ hi`, every kept row's wavenumber lies in
`[lo, hi]`, the kept rows form a sublist of the input (relative order
preserved), and filtering is idempotent. -/
theorem c6_filter_containment (rows : List (ℚ × ℚ)) (lo hi : ℚ)
    (h : lo ≤ hi) :
    (∀ r ∈ rangeFilter rows lo hi, lo ≤ r.1 ∧ r.1 ≤ hi) ∧
    (rangeFilter rows lo hi).Sublist rows ∧
    rangeFilter (rangeFilter rows lo hi) lo hi = rangeFilter rows lo hi := by
  refine ⟨?_, ?_, ?_⟩
  · intro r hr
    have hmem := List.mem_filter.mp hr
    have hcond := hmem.2
    simp only [Bool.and_eq_true, decide_eq_true_eq] at hcond
    exact ⟨hcond.2, hcond.1⟩
  · exact List.filter_sublist rows
  · unfold rangeFilter
    rw [List.filter_filter]
    congr 1
    funext r
    exact Bool.and_self _

/-- C6 witness at a concrete series and bounds. -/
theorem c6_witness :
    (∀ r ∈ rangeFilter [((1 : ℚ), (2 : ℚ)), (5, 3)] 0 4, 0 ≤ r.1 ∧ r.1 ≤ 4) ∧
    (rangeFilter [((1 : ℚ), (2 : ℚ)), (5, 3)] 0 4).Sublist
      [((1 : ℚ), (2 : ℚ)), (5, 3)] ∧
    rangeFilter (rangeFilter [((1 : ℚ), (2 : ℚ)), (5, 3)] 0 4) 0 4 =
      rangeFilter [((1 : ℚ), (2 : ℚ)), (5, 3)] 0 4 :=
  c6_filter_containment [(1, 2), (5, 3)] 0 4 (by norm_num)

/-- Once the scan index has reached `imax`, the local-maxima loop stops. -/
theorem localMaximaAuxF_stop (y : List ℚ) (imax fuel i : ℕ)
    (h : imax ≤ i) : localMaximaAuxF y imax fuel i = [] := by
  cases fuel with
  | zero => rfl
  | succ n =>
    unfold localMaximaAuxF
    rw [if_neg]
    omega

/-- C9: on fewer than 3 samples the detector returns no peaks, for every
positive prominence (and, being a total function, never raises). -/
theorem c9_degenerate_input (x y : List ℚ) (p : ℚ) (hp : 0 < p)
    (hlen : y.length < 3) : find_ftir_peaks x y p = ([], []) := by
  have hstop : localMaxima (y.map (fun v => -v)) = [] := by
    apply localMaximaAuxF_stop
    simp only [List.length_map]
    omega
  simp [find_ftir_peaks, find_peaks, hstop]

/-- C9 witness: a 2-point series yields no peaks at prominence 1. -/
theorem c9_witness :
    find_ftir_peaks [(1 : ℚ), 2] [(3 : ℚ), 4] 1 = ([], []) :=
  c9_degenerate_input [1, 2] [3, 4] 1 (by norm_num) (by simp)

theorem foldl_min_le_init (as : List ℚ) (a : ℚ) : as.foldl min a ≤ a := by
  induction as generalizing a with
  | nil => exact le_refl a
  | cons c cs ih =>
    exact le_trans (ih (min a c)) (min_le_left a c)

theorem foldl_max_init_le (as : List ℚ) (a : ℚ) : a ≤ as.foldl max a := by
  induction as generalizing a with
  | nil => exact le_refl a
  | cons c cs ih =>
    exact le_trans (le_max_left a c) (ih (max a c))

theorem foldl_min_le_mem (as : List ℚ) (a x : ℚ) (hx : x ∈ as) :
    as.foldl min a ≤ x := by
  induction as generalizing a with
  | nil => cases hx
  | cons c cs ih =>
    rcases List.mem_cons.mp hx with h | h
    · subst h
      exact le_trans (foldl_min_le_init cs (min a x)) (min_le_right a x)
    · exact ih (min a c) h

theorem foldl_max_mem_le (as : List ℚ) (a x : ℚ) (hx : x ∈ as) :
    x ≤ as.foldl max a := by
  induction as generalizing a with
  | nil => cases hx
  | cons c cs ih =>
    rcases List.mem_cons.mp hx with h | h
    · subst h
      exact le_trans (le_max_right a x) (foldl_max_init_le cs (max a x))
    · exact ih (max a c) h

theorem foldl_min_map (f : ℚ → ℚ)
    (hf : ∀ u v, f (min u v) = min (f u) (f v)) (as : List ℚ) (a : ℚ) :
    (as.map f).foldl min (f a) = f (as.foldl min a) := by
  induction as generalizing a with
  | nil => rfl
  | cons c cs ih =>
    simp only [List.map_cons, List.foldl_cons]
    rw [← hf a c, ih (min a c)]

theorem foldl_max_map (f : ℚ → ℚ)
    (hf : ∀ u v, f (max u v) = max (f u) (f v)) (as : List ℚ) (a : ℚ) :
    (as.map f).foldl max (f a) = f (as.foldl max a) := by
  induction as generalizing a with
  | nil => rfl
  | cons c cs ih =>
    simp only [List.map_cons, List.foldl_cons]
    rw [← hf a c, ih (max a c)]

/-- C2: on a constant sequence (max = min, which covers the single-point
case) `normalize_data` returns its input unchanged; on a non-constant one
the divisor `max - min` is nonzero and the result attains minimum exactly 0
and maximum exactly 1, the original minimum mapping to 0 and the original
maximum to 1. -/
theorem c2_normalize_range (a : ℚ) (as : List ℚ) :
    (seriesMax a as = seriesMin a as → normalize_data (a :: as) = a :: as) ∧
    (seriesMax a as ≠ seriesMin a as →
      seriesMax a as - seriesMin a as ≠ 0 ∧
      (seriesMin a as - seriesMin a as) /
          (seriesMax a as - seriesMin a as) = 0 ∧
      (seriesMax a as - seriesMin a as) /
          (seriesMax a as - seriesMin a as) = 1 ∧
      ∃ b bs, normalize_data (a :: as) = b :: bs ∧
        seriesMin b bs = 0 ∧ seriesMax b bs = 1) := by
  constructor
  · intro h
    simp only [normalize_data, h, if_pos]
  · intro h
    set mn := seriesMin a as with hmn
    set mx := seriesMax a as with hmx
    have hle : mn ≤ mx :=
      le_trans (foldl_min_le_init as a) (foldl_max_init_le as a)
    have hlt : mn < mx := lt_of_le_of_ne hle (fun he => h he.symm)
    have hd : (0 : ℚ) < mx - mn := by linarith
    have hdne : mx - mn ≠ 0 := ne_of_gt hd
    refine ⟨hdne, by simp, div_self hdne, ?_⟩
    set f : ℚ → ℚ := fun v => (v - mn) / (mx - mn) with hf
    have hfmin : ∀ u v, f (min u v) = min (f u) (f v) := by
      intro u v
      simp only [hf]
      rw [← min_sub_sub_right, ← min_div_div_right (le_of_lt hd)]
    have hfmax : ∀ u v, f (max u v) = max (f u) (f v) := by
      intro u v
      simp only [hf]
      rw [← max_sub_sub_right, ← max_div_div_right (le_of_lt hd)]
    refine ⟨f a, as.map f, ?_, ?_, ?_⟩
    · simp only [normalize_data, List.map_cons]
      rw [if_neg h]
    · show (as.map f).foldl min (f a) = 0
      rw [foldl_min_map f hfmin as a]
      show (seriesMin a as - mn) / (mx - mn) = 0
      rw [← hmn]
      simp
    · show (as.map f).foldl max (f a) = 1
      rw [foldl_max_map f hfmax as a]
      show (seriesMax a as - mn) / (mx - mn) = 1
      rw [← hmx]
      exact div_self hdne

/-- C2 witness: the constant branch at `[5, 5]` and the scaling branch at
`[0, 2]`. -/
theorem c2_witness :
    normalize_data [(5 : ℚ), 5] = [5, 5] ∧
    (seriesMax 0 [(2 : ℚ)] - seriesMin 0 [2] ≠ 0 ∧
      (seriesMin 0 [(2 : ℚ)] - seriesMin 0 [2]) /
          (seriesMax 0 [2] - seriesMin 0 [2]) = 0 ∧
      (seriesMax 0 [(2 : ℚ)] - seriesMin 0 [2]) /
          (seriesMax 0 [2] - seriesMin 0 [2]) = 1 ∧
      ∃ b bs, normalize_data [(0 : ℚ), 2] = b :: bs ∧
        seriesMin b bs = 0 ∧ seriesMax b bs = 1) :=
  ⟨(c2_normalize_range 5 [5]).1 (by norm_num [seriesMax, seriesMin]),
   (c2_normalize_range 0 [2]).2 (by norm_num [seriesMax, seriesMin])⟩

/-- C5: the aggregated peak records of a run are identical for every
setting of the stacked flag and the offset step, and stacking changes a
rendered series only by adding `idx * offset_step` to each y-value. -/
theorem c5_offset_noninterference (items : List PlotItem) (n s₁ s₂ : Bool)
    (o₁ o₂ : ℚ) :
    (plotLoop items n s₁ o₁).2 = (plotLoop items n s₂ o₂).2 ∧
    ∀ (idx : ℕ) (item : PlotItem), items[idx]? = some item →
      ((plotLoop items n s₁ o₁).1)[idx]? =
        some { xs := item.xs
             , ys := item.ys.map
                 (fun v => v + (if s₁ then (idx : ℚ) * o₁ else 0))
             , label := item.label } := by
  constructor
  · rfl
  · intro idx item hitem
    simp only [plotLoop, List.getElem?_map, List.getElem?_enum, hitem,
      Option.map_some', renderSeries, seriesOffset]

/-- C5 witness: a one-series run, stacked with offset 1 versus unstacked. -/
theorem c5_witness :
    (plotLoop [⟨[1], [2], "a", "f"⟩] false true 1).2 =
      (plotLoop [⟨[1], [2], "a", "f"⟩] false false 0).2 ∧
    ((plotLoop [⟨[1], [2], "a", "f"⟩] false true 1).1)[0]? =
      some { xs := [1]
           , ys := [(2 : ℚ)].map
               (fun v => v + (if true then ((0 : ℕ) : ℚ) * 1 else 0))
           , label := "a" } :=
  ⟨(c5_offset_noninterference [⟨[1], [2], "a", "f"⟩] false true false 1 0).1,
   (c5_offset_noninterference [⟨[1], [2], "a", "f"⟩] false true false 1 0).2
     0 ⟨[1], [2], "a", "f"⟩ rfl⟩

/-- The peak rows of one series, written as one map over the detected
indices of the negated stored signal. -/
theorem peakRecordsOf_eq (n : Bool) (item : PlotItem) :
    peakRecordsOf n item =
      (find_peaks (item.ys.map (fun v => -v)) (prom n)).map (fun j =>
        { serie := item.label
        , numeroDeOnda := pyround 2 (item.xs.getD j 0)
        , transmitanciaOriginal := pyround 4 (item.ys.getD j 0)
        , archivoOrigen := item.filename }) := by
  simp only [peakRecordsOf, find_ftir_peaks]
  rw [List.zip_map', List.map_map]
  rfl

/-- C1: every aggregated peak record, under every normalization and
stacking setting, reports the wavenumber and the pre-offset stored signal
value at the detected index of its series, rounded to 2 and 4 decimals
respectively. -/
theorem c1_peak_value_fidelity (items : List PlotItem) (n s : Bool) (o : ℚ)
    (rec : PeakRecord) (hrec : rec ∈ (plotLoop items n s o).2) :
    ∃ item ∈ items, ∃ j ∈ find_peaks (item.ys.map (fun v => -v)) (prom n),
      rec.numeroDeOnda = pyround 2 (item.xs.getD j 0) ∧
      rec.transmitanciaOriginal = pyround 4 (item.ys.getD j 0) ∧
      rec.serie = item.label ∧ rec.archivoOrigen = item.filename := by
  simp only [plotLoop, List.mem_flatten, List.mem_map] at hrec
  obtain ⟨recs, ⟨item, hitem, hrecs⟩, hmem⟩ := hrec
  subst hrecs
  refine ⟨item, hitem, ?_⟩
  rw [peakRecordsOf_eq] at hmem
  simp only [List.mem_map] at hmem
  obtain ⟨j, hj, hrec⟩ := hmem
  subst hrec
  exact ⟨j, hj, rfl, rfl, rfl, rfl⟩

/-- C1 witness: the concrete two-valley spectrum; its first peak record
reports wavenumber 7 and the original value 1/5. -/
theorem c1_witness :
    ∃ item ∈ [(⟨[10, 9, 8, 7, 6, 5, 4, 3, 2, 1],
        [1, 1, 1, 1/5, 1, 1, 1, 3/10, 1, 1], "s", "f"⟩ : PlotItem)],
      ∃ j ∈ find_peaks (item.ys.map (fun v => -v)) (prom false),
        (⟨"s", 7, 1/5, "f"⟩ : PeakRecord).numeroDeOnda =
          pyround 2 (item.xs.getD j 0) ∧
        (⟨"s", 7, 1/5, "f"⟩ : PeakRecord).transmitanciaOriginal =
          pyround 4 (item.ys.getD j 0) ∧
        (⟨"s", 7, 1/5, "f"⟩ : PeakRecord).serie = item.label ∧
        (⟨"s", 7, 1/5, "f"⟩ : PeakRecord).archivoOrigen = item.filename :=
  c1_peak_value_fidelity
    [⟨[10, 9, 8, 7, 6, 5, 4, 3, 2, 1],
      [1, 1, 1, 1/5, 1, 1, 1, 3/10, 1, 1], "s", "f"⟩] false true 1
    ⟨"s", 7, 1/5, "f"⟩
    (by
      have h : (plotLoop [(⟨[10, 9, 8, 7, 6, 5, 4, 3, 2, 1],
          [1, 1, 1, 1/5, 1, 1, 1, 3/10, 1, 1], "s", "f"⟩ : PlotItem)]
          false true 1).2 =
          [⟨"s", 7, 1/5, "f"⟩, ⟨"s", 3, 3/10, "f"⟩] := by
        with_unfolding_all rfl
      rw [h]
      exact List.mem_cons_self _ _)

/-- C10: whenever at least one series was processed but no peak was
detected anywhere, the page still shows the figure (and the PNG download)
while both the peak-CSV download and the peak-table view are omitted. -/
theorem c10_no_peaks_no_table (files : List (String × LoadInput))
    (cfg : Config)
    (h1 : (processFiles cfg files).1.isEmpty = false)
    (h2 : (plotLoop (processFiles cfg files).1 cfg.normalizeOption
      cfg.stackMode cfg.offsetValue).2 = []) :
    (runApp files cfg).figure =
      some (plotLoop (processFiles cfg files).1 cfg.normalizeOption
        cfg.stackMode cfg.offsetValue).1 ∧
    (runApp files cfg).exports =
      some { pngButton := true, peakCsv := none, peakTable := none } := by
  simp [runApp, h1, h2, exportArea]

/-- C10 witness: one monotone series loads fine, yields no peak, and the
peak exports are omitted while the figure is rendered. -/
theorem c10_witness :
    (runApp [("a.csv", .table ⟨["wave", "trans"],
        [[.num 10, .num 5], [.num 9, .num 6], [.num 8, .num 7]]⟩)]
      ⟨0, 100, false, false, 0⟩).figure =
      some (plotLoop (processFiles ⟨0, 100, false, false, 0⟩
          [("a.csv", .table ⟨["wave", "trans"],
            [[.num 10, .num 5], [.num 9, .num 6], [.num 8, .num 7]]⟩)]).1
        false false 0).1 ∧
    (runApp [("a.csv", .table ⟨["wave", "trans"],
        [[.num 10, .num 5], [.num 9, .num 6], [.num 8, .num 7]]⟩)]
      ⟨0, 100, false, false, 0⟩).exports =
      some { pngButton := true, peakCsv := none, peakTable := none } :=
  c10_no_peaks_no_table
    [("a.csv", .table ⟨["wave", "trans"],
      [[.num 10, .num 5], [.num 9, .num 6], [.num 8, .num 7]]⟩)]
    ⟨0, 100, false, false, 0⟩
    (by with_unfolding_all rfl) (by with_unfolding_all rfl)

/-- C8 counterexample: a table whose only row fails numeric coercion on
both selected columns leaves zero valid rows, yet `load_ftir_data` returns
an (empty) series, not a failure. -/
theorem c8_counterexample :
    keptRows 0 1 2 [[Cell.text "a", Cell.text "b"]] = [] ∧
    load_ftir_data (.table ⟨["wave", "trans"],
      [[Cell.text "a", Cell.text "b"]]⟩) = some [] := by
  constructor
  · with_unfolding_all rfl
  · with_unfolding_all rfl

/-- C8 (amended): when zero valid rows remain the load itself returns an
empty series, and the caller's `df is not None and not df.empty` check is
what rejects it: the file is reported as a load error and contributes no
series. -/
theorem c8_empty_load_rejected (name : String) (inp : LoadInput)
    (cfg : Config) (h : load_ftir_data inp = some []) :
    processFile cfg (name, inp) = .inr (.loadError name) := by
  simp [processFile, h]

/-- C8 witness: the all-text table is rejected at the call site. -/
theorem c8_witness :
    processFile ⟨0, 100, false, false, 0⟩ ("f.csv", .table ⟨["wave", "trans"],
      [[Cell.text "a", Cell.text "b"]]⟩) = .inr (.loadError "f.csv") :=
  c8_empty_load_rejected "f.csv" _ _ (by with_unfolding_all rfl)

/-- Amended row-retention condition: both selected columns coerce to
numbers AND no other column of the (padded) row holds a missing value. -/
def rowKept (w tr ncols : ℕ) (row : List Cell) : Bool :=
  !(toNumeric (row.getD w Cell.na)).isNA &&
  (!(toNumeric (row.getD tr Cell.na)).isNA &&
    (List.range ncols).all (fun j =>
      decide (j = w) || decide (j = tr) || !(row.getD j Cell.na).isNA))

theorem coerceRow_all_eq_rowKept (w tr ncols : ℕ) (row : List Cell)
    (hw : w < ncols) (htr : tr < ncols) :
    (coerceRow w tr ncols row).all (fun c => !c.isNA) =
      rowKept w tr ncols row := by
  unfold coerceRow rowKept
  rw [Bool.eq_iff_iff]
  simp only [List.all_eq_true, List.forall_mem_map, List.mem_range,
    Bool.and_eq_true, Bool.or_eq_true, Bool.not_eq_true', decide_eq_true_eq]
  constructor
  · intro hall
    refine ⟨?_, ?_, ?_⟩
    · have := hall w hw
      rwa [if_pos (Or.inl rfl)] at this
    · have := hall tr htr
      rwa [if_pos (Or.inr rfl)] at this
    · intro j hj
      by_cases hjw : j = w
      · exact Or.inl (Or.inl hjw)
      · by_cases hjtr : j = tr
        · exact Or.inl (Or.inr hjtr)
        · have := hall j hj
          rw [if_neg (by tauto)] at this
          exact Or.inr this
  · intro ⟨h1, h2, h3⟩ j hj
    by_cases hjw : j = w
    · subst hjw
      rwa [if_pos (Or.inl rfl)]
    · by_cases hjtr : j = tr
      · subst hjtr
        rwa [if_pos (Or.inr rfl)]
      · rw [if_neg (by tauto)]
        rcases h3 j hj with (h | h) | h
        · exact absurd h hjw
        · exact absurd h hjtr
        · exact h

/-- C3 counterexample: with columns `wave, trans, other` selected as
(0, 1), the row `(1, 2, <missing>)` coerces successfully on both selected
columns yet is dropped, because `df.dropna()` also drops on the unrelated
third column; the load result is the empty series. -/
theorem c3_counterexample :
    (toNumeric ([Cell.num 1, Cell.num 2, Cell.na].getD 0 Cell.na)).isNA
      = false ∧
    (toNumeric ([Cell.num 1, Cell.num 2, Cell.na].getD 1 Cell.na)).isNA
      = false ∧
    selectCols (["wave", "trans", "other"].map normalizeName) = some (0, 1) ∧
    keptRows 0 1 3 [[Cell.num 1, Cell.num 2, Cell.na]] = [] ∧
    load_ftir_data (.table ⟨["wave", "trans", "other"],
      [[Cell.num 1, Cell.num 2, Cell.na]]⟩) = some [] := by
  refine ⟨rfl, rfl, ?_, ?_, ?_⟩
  · with_unfolding_all rfl
  · with_unfolding_all rfl
  · with_unfolding_all rfl

/-- C3 (amended): the rows dropped by the loader are exactly those whose
coerced selected cells or any other column's cell is missing: the kept rows
are the coercions of the rows satisfying `rowKept` (both selected columns
coerce and no other column holds a missing value), in their original
order. -/
theorem c3_row_retention (w tr ncols : ℕ) (rows : List (List Cell))
    (hw : w < ncols) (htr : tr < ncols) :
    keptRows w tr ncols rows =
      (rows.filter (rowKept w tr ncols)).map (coerceRow w tr ncols) := by
  unfold keptRows
  rw [List.filter_map]
  congr 1
  apply List.filter_congr
  intro row _
  exact coerceRow_all_eq_rowKept w tr ncols row hw htr

/-- C3 witness: the counterexample table under the amended
characterization. -/
theorem c3_witness :
    keptRows 0 1 3 [[Cell.num 1, Cell.num 2, Cell.na],
        [Cell.num 3, Cell.num 4, Cell.num 0]] =
      (([[Cell.num 1, Cell.num 2, Cell.na],
        [Cell.num 3, Cell.num 4, Cell.num 0]].filter (rowKept 0 1 3)).map
          (coerceRow 0 1 3)) :=
  c3_row_retention 0 1 3
    [[Cell.num 1, Cell.num 2, Cell.na], [Cell.num 3, Cell.num 4, Cell.num 0]]
    (by norm_num) (by norm_num)

/-- One step of the upload loop when the head file yields a series. -/
theorem processFiles_cons_inl (cfg : Config) (f : String × LoadInput)
    (fs : List (String × LoadInput)) (it : PlotItem)
    (hpf : processFile cfg f = .inl it) :
    processFiles cfg (f :: fs) =
      (it :: (processFiles cfg fs).1, (processFiles cfg fs).2) := by
  simp only [processFiles, List.map_cons, List.filterMap_cons, hpf]

/-- One step of the upload loop when the head file yields a notice. -/
theorem processFiles_cons_inr (cfg : Config) (f : String × LoadInput)
    (fs : List (String × LoadInput)) (n : Notice)
    (hpf : processFile cfg f = .inr n) :
    processFiles cfg (f :: fs) =
      ((processFiles cfg fs).1, n :: (processFiles cfg fs).2) := by
  simp only [processFiles, List.map_cons, List.filterMap_cons, hpf]

/-- A file the caller counts as failed (load `None` or empty frame) makes
the loop emit the load-error notice and nothing else. -/
theorem processFile_of_loadFails (cfg : Config) (f : String × LoadInput)
    (h : loadFails f.2 = true) :
    processFile cfg f = .inr (.loadError f.1) := by
  unfold loadFails at h
  cases hl : load_ftir_data f.2 with
  | none => simp only [processFile, hl]
  | some rows =>
    rw [hl] at h
    simp only [processFile, hl]
    rw [if_pos h]

/-- A file that loads with data and has rows inside the window yields a
plotted series labelled with its own filename. -/
theorem processFile_of_success (cfg : Config) (f : String × LoadInput)
    (rows : List (ℚ × ℚ)) (hl : load_ftir_data f.2 = some rows)
    (h1 : rows.isEmpty = false)
    (h2 : (rangeFilter rows cfg.xMinLimit cfg.xMaxLimit).isEmpty = false) :
    processFile cfg f = .inl
      { xs := (rangeFilter rows cfg.xMinLimit cfg.xMaxLimit).map
          (fun r => r.1)
      , ys := if cfg.normalizeOption
          then normalize_data ((rangeFilter rows cfg.xMinLimit
            cfg.xMaxLimit).map (fun r => r.2))
          else (rangeFilter rows cfg.xMinLimit cfg.xMaxLimit).map
            (fun r => r.2)
      , label := defaultLabel f.1
      , filename := f.1 } := by
  simp [processFile, hl, h1, h2]

/-- C7 (amended): in a batch where every successfully loaded file also has
data inside the configured window, the run yields one series per
non-failing file, in input order and named after it, exactly the failing
files' load-error notices in input order, and `#series + #failures = N`. -/
theorem c7_partial_failure_isolation (cfg : Config)
    (files : List (String × LoadInput))
    (h : ∀ f ∈ files, loadFails f.2 = false →
      (rangeFilter ((load_ftir_data f.2).getD []) cfg.xMinLimit
        cfg.xMaxLimit).isEmpty = false) :
    (processFiles cfg files).1.map PlotItem.filename =
      (files.filter (fun f => !loadFails f.2)).map Prod.fst ∧
    (processFiles cfg files).2 =
      (files.filter (fun f => loadFails f.2)).map
        (fun f => Notice.loadError f.1) ∧
    (processFiles cfg files).1.length +
      (files.filter (fun f => loadFails f.2)).length = files.length := by
  induction files with
  | nil => exact ⟨rfl, rfl, rfl⟩
  | cons f fs ih =>
    have hf := h f (List.mem_cons_self f fs)
    obtain ⟨ih1, ih2, ih3⟩ := ih (fun g hg => h g (List.mem_cons_of_mem f hg))
    cases hLF : loadFails f.2 with
    | true =>
      have hfil1 : (f :: fs).filter (fun g => !loadFails g.2) =
          fs.filter (fun g => !loadFails g.2) := by
        simp [List.filter_cons, hLF]
      have hfil2 : (f :: fs).filter (fun g => loadFails g.2) =
          f :: fs.filter (fun g => loadFails g.2) := by
        simp [List.filter_cons, hLF]
      rw [processFiles_cons_inr cfg f fs _
        (processFile_of_loadFails cfg f hLF), hfil1, hfil2]
      refine ⟨ih1, ?_, ?_⟩
      · rw [List.map_cons, ih2]
      · simp only [List.length_cons]
        omega
    | false =>
      have hrows : ∃ rows, load_ftir_data f.2 = some rows ∧
          rows.isEmpty = false := by
        unfold loadFails at hLF
        cases hl : load_ftir_data f.2 with
        | none => rw [hl] at hLF; cases hLF
        | some rows => rw [hl] at hLF; exact ⟨rows, rfl, hLF⟩
      obtain ⟨rows, hl, h1⟩ := hrows
      have h2 := hf hLF
      rw [hl] at h2
      have hfil1 : (f :: fs).filter (fun g => !loadFails g.2) =
          f :: fs.filter (fun g => !loadFails g.2) := by
        simp [List.filter_cons, hLF]
      have hfil2 : (f :: fs).filter (fun g => loadFails g.2) =
          fs.filter (fun g => loadFails g.2) := by
        simp [List.filter_cons, hLF]
      rw [processFiles_cons_inl cfg f fs _
        (processFile_of_success cfg f rows hl h1 h2), hfil1, hfil2]
      refine ⟨?_, ih2, ?_⟩
      · rw [List.map_cons, List.map_cons, ih1]
      · simp only [List.length_cons]
        omega

/-- C7 counterexample: a file that loads successfully (no load failure)
but has no rows inside the configured window produces a run with 0 series
instead of N − K = 1, and a range warning instead of a failure notice. -/
theorem c7_counterexample :
    loadFails (.table ⟨["wave", "trans"], [[Cell.num 10, Cell.num 5]]⟩)
      = false ∧
    processFiles ⟨100, 200, false, false, 0⟩
      [("f.csv", .table ⟨["wave", "trans"], [[Cell.num 10, Cell.num 5]]⟩)] =
      ([], [.rangeWarning "f.csv"]) := by
  constructor
  · with_unfolding_all rfl
  · with_unfolding_all rfl

/-- C7 witness: a batch of three files of which the middle one fails to
parse; the two successes come out in order, with one failure notice. -/
theorem c7_witness :
    (processFiles ⟨0, 100, false, false, 0⟩
      [("a.csv", .table ⟨["wave", "trans"], [[Cell.num 10, Cell.num 5]]⟩),
       ("b.csv", .bad),
       ("c.csv", .table ⟨["wave", "trans"],
         [[Cell.num 9, Cell.num 6]]⟩)]).1.map PlotItem.filename =
      ([("a.csv", LoadInput.table ⟨["wave", "trans"],
          [[Cell.num 10, Cell.num 5]]⟩),
        ("b.csv", LoadInput.bad),
        ("c.csv", LoadInput.table ⟨["wave", "trans"],
          [[Cell.num 9, Cell.num 6]]⟩)].filter
        (fun f => !loadFails f.2)).map Prod.fst ∧
    (processFiles ⟨0, 100, false, false, 0⟩
      [("a.csv", .table ⟨["wave", "trans"], [[Cell.num 10, Cell.num 5]]⟩),
       ("b.csv", .bad),
       ("c.csv", .table ⟨["wave", "trans"], [[Cell.num 9, Cell.num 6]]⟩)]).2 =
      ([("a.csv", LoadInput.table ⟨["wave", "trans"],
          [[Cell.num 10, Cell.num 5]]⟩),
        ("b.csv", LoadInput.bad),
        ("c.csv", LoadInput.table ⟨["wave", "trans"],
          [[Cell.num 9, Cell.num 6]]⟩)].filter
        (fun f => loadFails f.2)).map (fun f => Notice.loadError f.1) ∧
    (processFiles ⟨0, 100, false, false, 0⟩
      [("a.csv", .table ⟨["wave", "trans"], [[Cell.num 10, Cell.num 5]]⟩),
       ("b.csv", .bad),
       ("c.csv", .table ⟨["wave", "trans"],
         [[Cell.num 9, Cell.num 6]]⟩)]).1.length +
      ([("a.csv", LoadInput.table ⟨["wave", "trans"],
          [[Cell.num 10, Cell.num 5]]⟩),
        ("b.csv", LoadInput.bad),
        ("c.csv", LoadInput.table ⟨["wave", "trans"],
          [[Cell.num 9, Cell.num 6]]⟩)].filter
        (fun f => loadFails f.2)).length = 3 :=
  c7_partial_failure_isolation ⟨0, 100, false, false, 0⟩
    [("a.csv", .table ⟨["wave", "trans"], [[Cell.num 10, Cell.num 5]]⟩),
     ("b.csv", .bad),
     ("c.csv", .table ⟨["wave", "trans"], [[Cell.num 9, Cell.num 6]]⟩)]
    (by
      intro f hf hlf
      simp only [List.mem_cons, List.not_mem_nil, or_false] at hf
      rcases hf with rfl | rfl | rfl
      · with_unfolding_all rfl
      · rw [show loadFails LoadInput.bad = true from rfl] at hlf
        cases hlf
      · with_unfolding_all rfl)
